import Mathlib

/-!
Shallow embedding of the review-moderation, rating-aggregation, enrollment and
shortlist core of the chq-backend repository
(src/models/Course.js, src/routes/courseRoutes.js, src/routes/aspirantRoutes.js,
src/controllers/adminController.js, src/controllers/institutionController.js).

The repository stores several incremental revisions of each file concatenated
together; the embedding follows the latest revision of each file, which is the
one the claims cite by line number (Course.js lines 478-1030, with the
moderation fields, the `suspended` status and the `enrollmentDeadline` field).

Modelling conventions:
- Mongoose ObjectIds are `Nat`; `Date` values are `Nat` timestamps.
- JS numbers holding ratings, prices and averages are `Rat` (the source only
  ever divides small integer sums, so exact rational arithmetic expresses the
  intended means); counters that the source can decrement are `Int`.
- String enums stay `String`, compared against the literal lists that appear
  in the schema, so that the Mongoose enum validation step can be embedded
  faithfully (the review `verificationStatus` enum in the schema is
  `['pending', 'approved', 'rejected']`, Course.js lines 511-515, even though
  the admin controller writes `'archived'`).
- `document.save()` is embedded as `saveCourse`: Mongoose runs schema
  validation first and then the user pre-save hook (Course.js lines 933-963),
  which recomputes `averageRating`, `totalReviews` and `currentEnrollments`;
  a validation failure rejects the write and leaves the stored course as it
  was.
- A request handler is a function from the stored course (plus request data)
  to `Except ReqError Course`; an `Except.error` response leaves the store
  unchanged, which `applyOp` makes explicit.
-/

namespace Chq

/-- An entry of `reviewSchema.votedBy` (Course.js lines 538-547):
a user id together with the recorded vote string. -/
structure VoteRecord where
  user : Nat
  vote : String
deriving Repr, DecidableEq

/-- An embedded review subdocument (`reviewSchema`, Course.js lines 482-552). -/
structure Review where
  id : Nat
  user : Nat
  courseRating : Rat
  instituteRating : Rat
  facultyRating : Rat
  reviewText : String
  verificationStatus : String
  verifiedBy : Option Nat
  verifiedAt : Option Nat
  rejectionReason : Option String
  isVisible : Bool
  isVerified : Bool
  helpfulVotes : Int
  notHelpfulVotes : Int
  votedBy : List VoteRecord
  createdAt : Nat
deriving Repr, DecidableEq

/-- An embedded enrollment subdocument (Course.js lines 853-868). -/
structure Enrollment where
  user : Nat
  enrolledAt : Nat
  paymentStatus : String
  amount : Rat
deriving Repr, DecidableEq

/-- The derived `averageRating` nested object (Course.js lines 872-889). -/
structure AverageRating where
  course : Rat
  institute : Rat
  faculty : Rat
  overall : Rat
deriving Repr, DecidableEq

/-- The `adminAction` tracking subobject (Course.js lines 834-842). -/
structure AdminAction where
  action : String
  reason : String
  actionBy : Nat
  actionAt : Nat
deriving Repr, DecidableEq

/-- The fields of `courseSchema` (Course.js lines 604-923) that the claims
touch: pricing, dates, publication state, capacity, the embedded enrollment
and review collections and the derived aggregates. -/
structure Course where
  institution : Nat
  price : Rat
  startDate : Nat
  endDate : Nat
  enrollmentDeadline : Option Nat
  promotionLevel : String
  isFeatured : Bool
  isPublished : Bool
  status : String
  adminAction : Option AdminAction
  maxStudents : Nat
  currentEnrollments : Nat
  enrollments : List Enrollment
  reviews : List Review
  averageRating : AverageRating
  totalReviews : Nat
  views : Int
  shortlisted : Int
deriving Repr, DecidableEq

/-- `this.reviews.filter(r => r.verificationStatus === 'approved')`
(Course.js line 937). -/
def approvedReviews (c : Course) : List Review :=
  c.reviews.filter (fun r => r.verificationStatus == "approved")

/-- `this.enrollments.filter(e => e.paymentStatus === 'completed')`
(Course.js line 960). -/
def completedEnrollments (c : Course) : List Enrollment :=
  c.enrollments.filter (fun e => e.paymentStatus == "completed")

/-- The Mongoose enum of `reviewSchema.verificationStatus`
(Course.js lines 511-515). -/
def verificationStatusEnum : List String := ["pending", "approved", "rejected"]

/-- The Mongoose enum of `votedBy.vote` (Course.js lines 543-546). -/
def voteEnum : List String := ["helpful", "not_helpful"]

/-- The Mongoose enum of `enrollments.paymentStatus` (Course.js lines 862-865). -/
def paymentStatusEnum : List String := ["pending", "completed", "failed"]

/-- The Mongoose enum of `courseSchema.status` (Course.js lines 820-824). -/
def statusEnum : List String :=
  ["draft", "published", "archived", "cancelled", "suspended"]

/-- The Mongoose enum of `courseSchema.promotionLevel`
(Course.js lines 798-802). -/
def promotionLevelEnum : List String := ["none", "basic", "premium", "featured"]

/-- Schema validation of one review subdocument: the `verificationStatus` and
vote enums, the 1-5 bounds on the three ratings and the required, bounded
review text (Course.js lines 482-552). -/
def reviewSchemaValid (r : Review) : Bool :=
  verificationStatusEnum.contains r.verificationStatus
    && r.votedBy.all (fun v => voteEnum.contains v.vote)
    && (1 ≤ r.courseRating && r.courseRating ≤ 5)
    && (1 ≤ r.instituteRating && r.instituteRating ≤ 5)
    && (1 ≤ r.facultyRating && r.facultyRating ≤ 5)
    && (r.reviewText ≠ "" && r.reviewText.length ≤ 1000)

/-- Schema validation of one enrollment subdocument (Course.js lines 853-868). -/
def enrollmentSchemaValid (e : Enrollment) : Bool :=
  paymentStatusEnum.contains e.paymentStatus

/-- Document validation run by Mongoose before the pre-save hook: every
subdocument and top-level enum must validate. -/
def courseSchemaValid (c : Course) : Bool :=
  c.reviews.all reviewSchemaValid
    && c.enrollments.all enrollmentSchemaValid
    && statusEnum.contains c.status
    && promotionLevelEnum.contains c.promotionLevel

/-- The pre-save hook `courseSchema.pre('save', ...)` (Course.js lines
933-963): recompute the three per-dimension means and their mean over the
approved reviews (all four fields and `totalReviews` are 0 when no review is
approved), then recompute `currentEnrollments` as the number of completed
enrollments. -/
def recomputeOnSave (c : Course) : Course :=
  let approved := approvedReviews c
  let c1 :=
    if approved.length > 0 then
      let totalCourse := approved.foldl (fun sum r => sum + r.courseRating) 0
      let totalInstitute := approved.foldl (fun sum r => sum + r.instituteRating) 0
      let totalFaculty := approved.foldl (fun sum r => sum + r.facultyRating) 0
      let n : Rat := approved.length
      let avgCourse := totalCourse / n
      let avgInstitute := totalInstitute / n
      let avgFaculty := totalFaculty / n
      { c with
        averageRating :=
          { course := avgCourse
            institute := avgInstitute
            faculty := avgFaculty
            overall := (avgCourse + avgInstitute + avgFaculty) / 3 }
        totalReviews := approved.length }
    else
      { c with
        averageRating := { course := 0, institute := 0, faculty := 0, overall := 0 }
        totalReviews := 0 }
  { c1 with currentEnrollments := (completedEnrollments c1).length }

/-- Errors surfaced by the embedded request handlers. The constructor names
follow the specification error taxonomy; the comments give the HTTP message of
the source. -/
inductive ReqError where
  /-- HTTP 400 "All rating fields and review text are required". -/
  | missingFields : ReqError
  /-- HTTP 400 "You have already reviewed this course". -/
  | duplicateReview : ReqError
  /-- HTTP 404 "Review not found". -/
  | reviewNotFound : ReqError
  /-- HTTP 400 "Vote must be either helpful or not_helpful". -/
  | invalidVote : ReqError
  /-- HTTP 400 "Cannot vote on unverified reviews". -/
  | invalidState : ReqError
  /-- HTTP 400 "Course is not available for enrollment". -/
  | notEnrollable : ReqError
  /-- HTTP 400 "You are already enrolled in this course". -/
  | alreadyEnrolled : ReqError
  /-- HTTP 404 "Institution not found". -/
  | institutionNotFound : ReqError
  /-- A Mongoose validation failure on `save()`: caught by the handler and
  returned as a 500 error; the write is rejected. -/
  | validationFailed : ReqError
deriving Repr, DecidableEq

/-- `course.save()`: Mongoose validates the document, then runs the pre-save
hook and persists the result. A validation failure rejects the whole write. -/
def saveCourse (c : Course) : Except ReqError Course :=
  if courseSchemaValid c then Except.ok (recomputeOnSave c)
  else Except.error ReqError.validationFailed

end Chq

namespace Chq

/-- Whitespace test of the JS `String.prototype.trim` (space, tab, newline,
carriage return). -/
def isJsWhitespace (ch : Char) : Bool :=
  ch == ' ' || ch == '\t' || ch == '\n' || ch == '\r'

/-- The `reviewText.trim()` call of the review-submission handler,
implemented structurally over the character list so that concrete instances
evaluate by kernel reduction. -/
def jsTrim (s : String) : String :=
  ⟨((s.data.dropWhile isJsWhitespace).reverse.dropWhile isJsWhitespace).reverse⟩

/-- Look up an embedded review by subdocument id:
`course.reviews.id(reviewId)`. -/
def findReview (c : Course) (reviewId : Nat) : Option Review :=
  c.reviews.find? (fun r => r.id == reviewId)

/-- Handler of `POST /api/courses/:id/reviews` (courseRoutes.js lines
230-293): reject missing fields (a zero rating and an empty text are falsy in
JS), reject a duplicate review by the same user whatever its status, compute
the enrollment badge `isVerified` from a completed enrollment of the reviewer,
append a `pending`, invisible review and save. The ratings arrive through
`parseInt`, hence the `Int` parameters. -/
def submitReview (c : Course) (uid : Nat) (courseRating instituteRating
    facultyRating : Int) (reviewText : String) (newId now : Nat) :
    Except ReqError Course :=
  if courseRating == 0 || instituteRating == 0 || facultyRating == 0
      || reviewText == "" then
    Except.error ReqError.missingFields
  else if c.reviews.any (fun r => r.user == uid) then
    Except.error ReqError.duplicateReview
  else
    let isEnrolled := c.enrollments.any (fun e =>
      e.user == uid && e.paymentStatus == "completed")
    saveCourse { c with reviews := c.reviews ++
      [{ id := newId
         user := uid
         courseRating := courseRating
         instituteRating := instituteRating
         facultyRating := facultyRating
         reviewText := jsTrim reviewText
         verificationStatus := "pending"
         verifiedBy := none
         verifiedAt := none
         rejectionReason := none
         isVisible := false
         isVerified := isEnrolled
         helpfulVotes := 0
         notHelpfulVotes := 0
         votedBy := []
         createdAt := now }] }

/-- The per-review mutation of `verifyReview` (adminController.js lines
369-386): the action-specific field writes followed by the unconditional
moderator stamp. Note that every branch overwrites `isVerified`, and that
`archive` writes the string `'archived'`, which is outside the schema enum. -/
def applyModeration (action : String) (rejectionReason : Option String)
    (adminId now : Nat) (r : Review) : Review :=
  let r1 :=
    if action == "approve" then
      { r with verificationStatus := "approved", isVisible := true,
               isVerified := true }
    else if action == "reject" then
      { r with verificationStatus := "rejected", isVisible := false,
               isVerified := false, rejectionReason := rejectionReason }
    else if action == "archive" then
      { r with verificationStatus := "archived", isVisible := false,
               isVerified := false }
    else r
  { r1 with verifiedBy := some adminId, verifiedAt := some now }

/-- Handler of `PUT /api/admin/reviews/:courseId/:reviewId/verify`
(adminController.js lines 354-409, `verifyReview`): look the review up, apply
the moderation action and save.

After a successful save of an `approve`, the source (lines 390-398) assigns
`course.averageRating = <scalar mean of courseRating over the isVisible and
isVerified reviews>` and `course.totalReviews = <their count>` and saves a
second time. The scalar cannot survive: `averageRating` is a nested object
path, and even if the assignment were accepted, the pre-save hook of the
second save overwrites `averageRating` and `totalReviews` from the review
list again. The embedding therefore performs the second save with the
`totalReviews` write (the only type-correct assignment) and lets the hook
overwrite it, which yields the same stored course as the source in either
reading of the scalar assignment. -/
def verifyReview (c : Course) (reviewId : Nat) (action : String)
    (rejectionReason : Option String) (adminId now : Nat) :
    Except ReqError Course :=
  match findReview c reviewId with
  | none => Except.error ReqError.reviewNotFound
  | some _ =>
    let c1 := { c with reviews := c.reviews.map (fun r =>
      if r.id == reviewId then applyModeration action rejectionReason adminId now r
      else r) }
    match saveCourse c1 with
    | Except.error e => Except.error e
    | Except.ok c2 =>
      if action == "approve" then
        let visibleReviews := c2.reviews.filter (fun r =>
          r.isVisible && r.isVerified)
        if visibleReviews.length > 0 then
          saveCourse { c2 with totalReviews := visibleReviews.length }
        else Except.ok c2
      else Except.ok c2

/-- Flip the first vote record of `uid` to `vote`, as the JS mutation of the
record returned by `review.votedBy.find(...)` does. -/
def updateFirstVote (votes : List VoteRecord) (uid : Nat) (vote : String) :
    List VoteRecord :=
  match votes with
  | [] => []
  | v :: rest =>
    if v.user == uid then ({ v with vote := vote } : VoteRecord) :: rest
    else v :: updateFirstVote rest uid vote

/-- The vote mutation of `POST /api/courses/:id/reviews/:reviewId/vote`
(courseRoutes.js lines 326-358) on the located review: an existing voter has
the old counter decremented, the record flipped and the new counter
incremented; a new voter gets a record appended and the counter incremented. -/
def applyVote (r : Review) (uid : Nat) (vote : String) : Review :=
  match r.votedBy.find? (fun v => v.user == uid) with
  | some existingVote =>
    let r1 :=
      if existingVote.vote == "helpful" then
        { r with helpfulVotes := r.helpfulVotes - 1 }
      else
        { r with notHelpfulVotes := r.notHelpfulVotes - 1 }
    let r2 := { r1 with votedBy := updateFirstVote r1.votedBy uid vote }
    if vote == "helpful" then { r2 with helpfulVotes := r2.helpfulVotes + 1 }
    else { r2 with notHelpfulVotes := r2.notHelpfulVotes + 1 }
  | none =>
    let r1 := { r with votedBy := r.votedBy ++ [({ user := uid, vote := vote } : VoteRecord)] }
    if vote == "helpful" then { r1 with helpfulVotes := r1.helpfulVotes + 1 }
    else { r1 with notHelpfulVotes := r1.notHelpfulVotes + 1 }

/-- Handler of `POST /api/courses/:id/reviews/:reviewId/vote`
(courseRoutes.js lines 298-369): validate the vote string, require the review
to exist and to be `approved`, then apply the vote and save. -/
def voteReview (c : Course) (reviewId uid : Nat) (vote : String) :
    Except ReqError Course :=
  if !(voteEnum.contains vote) then Except.error ReqError.invalidVote
  else
    match findReview c reviewId with
    | none => Except.error ReqError.reviewNotFound
    | some review =>
      if review.verificationStatus ≠ "approved" then
        Except.error ReqError.invalidState
      else
        saveCourse { c with reviews := c.reviews.map (fun r =>
          if r.id == reviewId then applyVote r uid vote else r) }

/-- The method `courseSchema.methods.canEnroll` (Course.js lines 1000-1026):
published flag, published status, enrollment deadline when one is set, and
capacity when `maxStudents` is positive. The method never consults
`startDate`. -/
def canEnroll (c : Course) (now : Nat) : Bool :=
  if !c.isPublished then false
  else if c.status ≠ "published" then false
  else if (match c.enrollmentDeadline with
           | some d => decide (now > d)
           | none => false) then false
  else if c.maxStudents > 0 && c.currentEnrollments ≥ c.maxStudents then false
  else true

/-- Handler of `POST /api/aspirant/enroll/:courseId` (aspirantRoutes.js lines
228-276): `canEnroll` gate, duplicate-enrollment gate on any existing record
of the user whatever its payment status, then append an enrollment that is
immediately `completed` (`amount || course.price`: a zero amount is falsy) and
save. -/
def enroll (c : Course) (uid : Nat) (amount : Rat) (now : Nat) :
    Except ReqError Course :=
  if !(canEnroll c now) then Except.error ReqError.notEnrollable
  else if c.enrollments.any (fun e => e.user == uid) then
    Except.error ReqError.alreadyEnrolled
  else
    saveCourse { c with enrollments := c.enrollments ++
      [{ user := uid
         enrolledAt := now
         paymentStatus := "completed"
         amount := if amount == 0 then c.price else amount }] }

/-- The method `courseSchema.methods.addView` (Course.js lines 985-988). -/
def addView (c : Course) : Except ReqError Course :=
  saveCourse { c with views := c.views + 1 }

/-- The method `courseSchema.methods.addToShortlist` (Course.js lines
990-993), as called by `POST /api/aspirant/shortlist/:courseId`. -/
def addToShortlist (c : Course) : Except ReqError Course :=
  saveCourse { c with shortlisted := c.shortlisted + 1 }

/-- The method `courseSchema.methods.removeFromShortlist` (Course.js lines
995-998), as called by `DELETE /api/aspirant/shortlist/:courseId`:
`Math.max(0, shortlisted - 1)`. -/
def removeFromShortlist (c : Course) : Except ReqError Course :=
  saveCourse { c with shortlisted := max 0 (c.shortlisted - 1) }

/-- Handler of `POST /api/institution/courses/:id/promote`
(`promoteCourse`, institutionController.js revision at the end of
adminController.js, lines 1328-1357): set the promotion level, derive
`isFeatured`, save. -/
def promoteCourse (c : Course) (level : String) : Except ReqError Course :=
  saveCourse { c with promotionLevel := level, isFeatured := level == "featured" }

/-- Handler of `PUT /api/admin/courses/:id/publish` (adminController.js lines
265-295, `toggleCoursePublication`): set `isPublished` from the action, stamp
`adminAction` and save. The source also assigns `course.publishStatus`, a
field that does not exist in the schema, so Mongoose strict mode discards it
and `status` is untouched. -/
def toggleCoursePublication (c : Course) (publish : Bool) (reason : String)
    (adminId now : Nat) : Except ReqError Course :=
  saveCourse { c with
    isPublished := publish
    adminAction := some
      { action := if publish then "published" else "unpublished"
        reason := reason
        actionBy := adminId
        actionAt := now } }

/-- The `isPublished` handling of the institution course update
(`updateCourse`, institutionController.js copy in courseRoutes.js lines
1192-1195 of adminController.js equivalents): when the update carries
`isPublished`, `status` is set to `published` or `draft` accordingly. The
update goes through `findByIdAndUpdate`, which bypasses the pre-save hook.
Only this publication effect of `updateCourse` belongs to the core state
machines; the remaining updatable fields are outside the embedded state. -/
def setCoursePublication (c : Course) (publish : Bool) : Course :=
  { c with isPublished := publish
           status := if publish then "published" else "draft" }

end Chq

namespace Chq

/-- The review filter of the public course-detail handler
`GET /api/courses/:id` (courseRoutes.js lines 162-203; the filter is lines
192-194). Express dispatches the first matching registration, so this handler
serves the course detail for every requester role; it keeps only the reviews
with `verificationStatus === 'approved'`. -/
def publicCourseReviews (c : Course) : List Review :=
  c.reviews.filter (fun r => r.verificationStatus == "approved")

/-- One element of the list built by `getInstitutionReviews`
(institutionController.js lines 180-228): the review fields the handler
copies out, including `verificationStatus` and `rejectionReason`. -/
structure InstitutionReviewEntry where
  reviewId : Nat
  courseId : Nat
  user : Nat
  courseRating : Rat
  instituteRating : Rat
  facultyRating : Rat
  reviewText : String
  isVerified : Bool
  verificationStatus : String
  rejectionReason : Option String
  helpfulVotes : Int
  createdAt : Nat
deriving Repr, DecidableEq

/-- The entry `getInstitutionReviews` pushes for one review of one course. -/
def institutionReviewEntry (courseId : Nat) (r : Review) :
    InstitutionReviewEntry :=
  { reviewId := r.id
    courseId := courseId
    user := r.user
    courseRating := r.courseRating
    instituteRating := r.instituteRating
    facultyRating := r.facultyRating
    reviewText := r.reviewText
    isVerified := r.isVerified
    verificationStatus := r.verificationStatus
    rejectionReason := r.rejectionReason
    helpfulVotes := r.helpfulVotes
    createdAt := r.createdAt }

/-- Handler of `GET /api/institution/reviews` (institutionController.js lines
180-228, `getInstitutionReviews`): flatten every review of every course owned
by the requesting institution, no status filter, then sort newest first. The
store is a list of (course id, course) pairs. -/
def getInstitutionReviews (store : List (Nat × Course)) (instId : Nat) :
    List InstitutionReviewEntry :=
  let allReviews :=
    ((store.filter (fun p => p.2.institution == instId)).map (fun p =>
      p.2.reviews.map (institutionReviewEntry p.1))).flatten
  allReviews.mergeSort (fun a b => a.createdAt ≥ b.createdAt)

/-- Handler of `GET /api/admin/courses` (adminController.js lines 220-260,
`getAllCourses`) with no query filter: the admin receives the full course
documents, reviews of every status included, unfiltered. -/
def getAllCoursesAdmin (store : List (Nat × Course)) : List (Nat × Course) :=
  store

/-- The fields of the User model (src/models/User.js) that the
institution-status operation touches. -/
structure InstitutionUser where
  id : Nat
  role : String
  isVerified : Bool
  isActive : Bool
  deactivatedAt : Option Nat
  deactivationReason : Option String
deriving Repr, DecidableEq

/-- Handler of `PUT /api/admin/institutions/:id/status` (adminController.js
lines 186-215, `updateInstitutionStatus`): on `inactive` set
`isActive = false` with a deactivation stamp and reason, on `active` set
`isActive = true` and clear the stamp; any other status string changes
nothing. The handler reads and writes only the institution user document. -/
def updateInstitutionStatus (u : InstitutionUser) (status : String)
    (reason : Option String) (now : Nat) : Except ReqError InstitutionUser :=
  if u.role ≠ "institution" then Except.error ReqError.institutionNotFound
  else if status == "active" then
    Except.ok { u with isActive := true, deactivatedAt := none }
  else if status == "inactive" then
    Except.ok { u with isActive := false, deactivatedAt := some now,
                       deactivationReason := reason }
  else Except.ok u

/-- A system state for the institution-status operation: one institution user
together with the stored courses (course id paired with course). -/
structure SysState where
  institution : InstitutionUser
  courses : List (Nat × Course)
deriving Repr, DecidableEq

/-- The institution-status operation lifted to the system state: only the
institution document is written, because `updateInstitutionStatus` never
queries or saves a course. -/
def sysUpdateInstitutionStatus (s : SysState) (status : String)
    (reason : Option String) (now : Nat) : Except ReqError SysState :=
  match updateInstitutionStatus s.institution status reason now with
  | Except.error e => Except.error e
  | Except.ok u => Except.ok { s with institution := u }

/-- A freshly created course, per `createCourse` (adminController.js lines
1067-1097): empty subcollections, zero derived aggregates, `draft` status,
`isPublished = false`, `promotionLevel` at its schema default. The
claim-relevant scalar attributes are parameters. -/
def initCourse (inst : Nat) (price : Rat) (startDate endDate : Nat)
    (enrollmentDeadline : Option Nat) (maxStudents : Nat) : Course :=
  { institution := inst
    price := price
    startDate := startDate
    endDate := endDate
    enrollmentDeadline := enrollmentDeadline
    promotionLevel := "none"
    isFeatured := false
    isPublished := false
    status := "draft"
    adminAction := none
    maxStudents := maxStudents
    currentEnrollments := 0
    enrollments := []
    reviews := []
    averageRating := { course := 0, institute := 0, faculty := 0, overall := 0 }
    totalReviews := 0
    views := 0
    shortlisted := 0 }

/-- One request against a stored course: the operations of the review
moderation, voting, enrollment, shortlist and publication state machines. -/
inductive CourseOp where
  | submitReview (uid : Nat) (courseRating instituteRating facultyRating : Int)
      (reviewText : String) (newId now : Nat) : CourseOp
  | verifyReview (reviewId : Nat) (action : String)
      (rejectionReason : Option String) (adminId now : Nat) : CourseOp
  | voteReview (reviewId uid : Nat) (vote : String) : CourseOp
  | enroll (uid : Nat) (amount : Rat) (now : Nat) : CourseOp
  | addView : CourseOp
  | addToShortlist : CourseOp
  | removeFromShortlist : CourseOp
  | promoteCourse (level : String) : CourseOp
  | toggleCoursePublication (publish : Bool) (reason : String)
      (adminId now : Nat) : CourseOp
  | setCoursePublication (publish : Bool) : CourseOp
deriving Repr, DecidableEq

/-- Dispatch one operation against the stored course. -/
def runOp (c : Course) : CourseOp → Except ReqError Course
  | CourseOp.submitReview uid cr ir fr text newId now =>
    submitReview c uid cr ir fr text newId now
  | CourseOp.verifyReview reviewId action reason adminId now =>
    verifyReview c reviewId action reason adminId now
  | CourseOp.voteReview reviewId uid vote => voteReview c reviewId uid vote
  | CourseOp.enroll uid amount now => enroll c uid amount now
  | CourseOp.addView => addView c
  | CourseOp.addToShortlist => addToShortlist c
  | CourseOp.removeFromShortlist => removeFromShortlist c
  | CourseOp.promoteCourse level => promoteCourse c level
  | CourseOp.toggleCoursePublication publish reason adminId now =>
    toggleCoursePublication c publish reason adminId now
  | CourseOp.setCoursePublication publish => setCoursePublication c publish |> Except.ok

/-- The stored course after one request: an error response leaves the store
unchanged (the handlers return the error before any save, or the save itself
rejected the write). -/
def applyOp (c : Course) (op : CourseOp) : Course :=
  match runOp c op with
  | Except.ok c1 => c1
  | Except.error _ => c

/-- States of the stored course reachable from course creation by request
sequences of the embedded operations. -/
def Reachable (c : Course) : Prop :=
  ∃ (inst : Nat) (price : Rat) (startDate endDate : Nat)
    (deadline : Option Nat) (maxStudents : Nat) (ops : List CourseOp),
    c = ops.foldl applyOp
      (initCourse inst price startDate endDate deadline maxStudents)

end Chq

namespace Chq

/-- The arithmetic mean of one rating dimension over a list of reviews. -/
def ratingMean (f : Review → Rat) (rs : List Review) : Rat :=
  (rs.map f).sum / rs.length

/-- The rating-aggregation invariant of a stored course: the three
per-dimension fields are the means of the corresponding rating over exactly
the approved reviews, `overall` is the mean of those three means,
`totalReviews` counts the approved set, and everything is 0 when no review is
approved. -/
def RatingInv (c : Course) : Prop :=
  (0 < (approvedReviews c).length →
    c.averageRating.course = ratingMean Review.courseRating (approvedReviews c) ∧
    c.averageRating.institute = ratingMean Review.instituteRating (approvedReviews c) ∧
    c.averageRating.faculty = ratingMean Review.facultyRating (approvedReviews c) ∧
    c.averageRating.overall =
      (ratingMean Review.courseRating (approvedReviews c) +
       ratingMean Review.instituteRating (approvedReviews c) +
       ratingMean Review.facultyRating (approvedReviews c)) / 3 ∧
    c.totalReviews = (approvedReviews c).length) ∧
  ((approvedReviews c).length = 0 →
    c.averageRating = { course := 0, institute := 0, faculty := 0, overall := 0 } ∧
    c.totalReviews = 0)

/-- The pre-save hook changes only the three derived aggregates; every other
field of the course survives a save unchanged. -/
theorem recomputeOnSave_frame (c : Course) :
    (recomputeOnSave c).reviews = c.reviews ∧
    (recomputeOnSave c).enrollments = c.enrollments ∧
    (recomputeOnSave c).shortlisted = c.shortlisted ∧
    (recomputeOnSave c).maxStudents = c.maxStudents ∧
    (recomputeOnSave c).status = c.status ∧
    (recomputeOnSave c).promotionLevel = c.promotionLevel ∧
    (recomputeOnSave c).isPublished = c.isPublished ∧
    (recomputeOnSave c).enrollmentDeadline = c.enrollmentDeadline ∧
    (recomputeOnSave c).views = c.views ∧
    (recomputeOnSave c).institution = c.institution ∧
    (recomputeOnSave c).price = c.price ∧
    (recomputeOnSave c).startDate = c.startDate := by
  unfold recomputeOnSave
  dsimp only
  split <;> exact ⟨rfl, rfl, rfl, rfl, rfl, rfl, rfl, rfl, rfl, rfl, rfl, rfl⟩

/-- The pre-save hook leaves the approved-review set itself unchanged. -/
theorem approvedReviews_recomputeOnSave (c : Course) :
    approvedReviews (recomputeOnSave c) = approvedReviews c := by
  unfold approvedReviews
  rw [(recomputeOnSave_frame c).1]

/-- The pre-save hook leaves the completed-enrollment set itself unchanged. -/
theorem completedEnrollments_recomputeOnSave (c : Course) :
    completedEnrollments (recomputeOnSave c) = completedEnrollments c := by
  unfold completedEnrollments
  rw [(recomputeOnSave_frame c).2.1]

/-- The pre-save hook sets `currentEnrollments` to the completed-enrollment
count. -/
theorem recomputeOnSave_currentEnrollments (c : Course) :
    (recomputeOnSave c).currentEnrollments = (completedEnrollments c).length := by
  unfold recomputeOnSave
  dsimp only
  split <;> rfl

/-- Unfolding of a successful save. -/
theorem saveCourse_eq_ok {c c' : Course} (h : saveCourse c = Except.ok c') :
    courseSchemaValid c = true ∧ c' = recomputeOnSave c := by
  unfold saveCourse at h
  split at h
  · exact ⟨by assumption, (Except.ok.injEq _ _).mp h |>.symm⟩
  · exact absurd h (by simp)

/-- The JS `reduce` over one rating dimension is the sum of that dimension. -/
theorem foldl_rating_eq_sum (f : Review → Rat) (rs : List Review) :
    rs.foldl (fun sum r => sum + f r) 0 = (rs.map f).sum := by
  rw [List.sum_eq_foldl, List.foldl_map]

/-- The pre-save hook establishes the rating-aggregation invariant on every
course it returns. -/
theorem ratingInv_recomputeOnSave (c : Course) : RatingInv (recomputeOnSave c) := by
  unfold RatingInv
  rw [approvedReviews_recomputeOnSave]
  constructor
  · intro hpos
    unfold recomputeOnSave
    dsimp only
    have hcond : (approvedReviews c).length > 0 := hpos
    simp only [hcond, if_true]
    refine ⟨?_, ?_, ?_, ?_, ?_⟩ <;>
      simp [ratingMean, foldl_rating_eq_sum]
  · intro hzero
    unfold recomputeOnSave
    dsimp only
    have hcond : ¬((approvedReviews c).length > 0) := by omega
    simp only [hcond, if_false]
    constructor <;> trivial

/-- Schema validity only reads fields the pre-save hook never writes. -/
theorem courseSchemaValid_recomputeOnSave (c : Course) :
    courseSchemaValid (recomputeOnSave c) = courseSchemaValid c := by
  unfold courseSchemaValid
  rw [(recomputeOnSave_frame c).1, (recomputeOnSave_frame c).2.1,
      (recomputeOnSave_frame c).2.2.2.2.1, (recomputeOnSave_frame c).2.2.2.2.2.1]

end Chq

namespace Chq

/-- Moderation never touches the vote records of a review. -/
theorem applyModeration_votedBy (action : String) (reason : Option String)
    (adminId now : Nat) (r : Review) :
    (applyModeration action reason adminId now r).votedBy = r.votedBy := by
  unfold applyModeration
  split_ifs <;> rfl

/-- Moderation keeps the approved-implies-visible property of a review:
`approve` makes it visible, `reject` and `archive` leave the approved status,
and an unknown action changes neither field. -/
theorem applyModeration_approved_visible (action : String)
    (reason : Option String) (adminId now : Nat) (r : Review)
    (h : r.verificationStatus = "approved" → r.isVisible = true) :
    (applyModeration action reason adminId now r).verificationStatus = "approved" →
      (applyModeration action reason adminId now r).isVisible = true := by
  unfold applyModeration
  split_ifs <;> simp_all

/-- Voting never touches the verification status or visibility of a review. -/
theorem applyVote_status (r : Review) (uid : Nat) (vote : String) :
    (applyVote r uid vote).verificationStatus = r.verificationStatus ∧
    (applyVote r uid vote).isVisible = r.isVisible := by
  unfold applyVote
  cases h : r.votedBy.find? (fun v => v.user == uid) <;>
    dsimp only <;> split_ifs <;> exact ⟨rfl, rfl⟩

/-- Flipping the first vote record of a user does not change the user list. -/
theorem updateFirstVote_users (votes : List VoteRecord) (uid : Nat)
    (vote : String) :
    (updateFirstVote votes uid vote).map VoteRecord.user
      = votes.map VoteRecord.user := by
  induction votes with
  | nil => rfl
  | cons v rest ih =>
    unfold updateFirstVote
    split_ifs <;> simp [ih]

/-- Voting preserves distinctness of the voters of a review: an existing
voter keeps a single flipped record, a new voter was absent from the list. -/
theorem applyVote_users_nodup (r : Review) (uid : Nat) (vote : String)
    (h : (r.votedBy.map VoteRecord.user).Nodup) :
    ((applyVote r uid vote).votedBy.map VoteRecord.user).Nodup := by
  unfold applyVote
  cases hfind : r.votedBy.find? (fun v => v.user == uid) with
  | some v =>
    dsimp only
    split_ifs <;> simp only [updateFirstVote_users] <;> exact h
  | none =>
    have huid : uid ∉ r.votedBy.map VoteRecord.user := by
      intro hmem
      obtain ⟨w, hw, hwu⟩ := List.mem_map.mp hmem
      have := List.find?_eq_none.mp hfind w hw
      simp [hwu] at this
    dsimp only
    split_ifs <;> simp_all [List.nodup_append]

/-- The state invariant of a stored course: `currentEnrollments` mirrors the
completed-enrollment count, capacity is respected, approved reviews are
visible, voters are distinct per review, the shortlist counter is
nonnegative, the rating aggregates track the approved set, and the document
validates against the schema (in particular no review carries a
`verificationStatus` outside the schema enum). -/
def CourseInv (c : Course) : Prop :=
  c.currentEnrollments = (completedEnrollments c).length ∧
  (0 < c.maxStudents → (completedEnrollments c).length ≤ c.maxStudents) ∧
  (∀ r ∈ c.reviews, r.verificationStatus = "approved" → r.isVisible = true) ∧
  (∀ r ∈ c.reviews, (r.votedBy.map VoteRecord.user).Nodup) ∧
  0 ≤ c.shortlisted ∧
  RatingInv c ∧
  courseSchemaValid c = true

/-- A freshly created course satisfies the invariant. -/
theorem courseInv_initCourse (inst : Nat) (price : Rat) (startDate endDate : Nat)
    (deadline : Option Nat) (maxStudents : Nat) :
    CourseInv (initCourse inst price startDate endDate deadline maxStudents) := by
  refine ⟨rfl, ?_, ?_, ?_, ?_, ⟨?_, ?_⟩, ?_⟩ <;>
    simp [initCourse, completedEnrollments, approvedReviews, courseSchemaValid,
      statusEnum, promotionLevelEnum]

/-- A successful save yields an invariant-satisfying course, provided the
saved document already satisfied the parts of the invariant that the pre-save
hook does not itself restore. -/
theorem courseInv_saveCourse {m c' : Course} (h : saveCourse m = Except.ok c')
    (hcap : 0 < m.maxStudents → (completedEnrollments m).length ≤ m.maxStudents)
    (hvis : ∀ r ∈ m.reviews, r.verificationStatus = "approved" → r.isVisible = true)
    (hnodup : ∀ r ∈ m.reviews, (r.votedBy.map VoteRecord.user).Nodup)
    (hshort : 0 ≤ m.shortlisted) :
    CourseInv c' := by
  obtain ⟨hvalid, rfl⟩ := saveCourse_eq_ok h
  refine ⟨?_, ?_, ?_, ?_, ?_, ?_, ?_⟩
  · rw [recomputeOnSave_currentEnrollments, completedEnrollments_recomputeOnSave]
  · rw [(recomputeOnSave_frame m).2.2.2.1, completedEnrollments_recomputeOnSave]
    exact hcap
  · rw [(recomputeOnSave_frame m).1]
    exact hvis
  · rw [(recomputeOnSave_frame m).1]
    exact hnodup
  · rw [(recomputeOnSave_frame m).2.2.1]
    exact hshort
  · exact ratingInv_recomputeOnSave m
  · rw [courseSchemaValid_recomputeOnSave]
    exact hvalid

/-- When `canEnroll` accepts, a positive capacity has not been reached. -/
theorem canEnroll_capacity {c : Course} {now : Nat}
    (h : canEnroll c now = true) (hmax : 0 < c.maxStudents) :
    c.currentEnrollments < c.maxStudents := by
  unfold canEnroll at h
  split_ifs at h with h1 h2 h3 h4
  all_goals simp_all


/-- A successful request preserves the course invariant: every handler that
writes goes through a save, and the publication field update changes no
invariant-relevant field. -/
theorem courseInv_runOp (c c' : Course) (op : CourseOp)
    (h : runOp c op = Except.ok c') (hInv : CourseInv c) : CourseInv c' := by
  obtain ⟨hcur, hcap, hvis, hnodup, hshort, hrat, hvalid⟩ := hInv
  cases op with
  | submitReview uid cr ir fr text newId now =>
    simp only [runOp] at h
    unfold submitReview at h
    split_ifs at h with hmiss hdup
    · refine courseInv_saveCourse h hcap ?_ ?_ hshort
      · intro r hr
        rcases List.mem_append.mp hr with hold | hnew
        · exact hvis r hold
        · rw [List.mem_singleton.mp hnew]
          intro habs
          simp at habs
      · intro r hr
        rcases List.mem_append.mp hr with hold | hnew
        · exact hnodup r hold
        · rw [List.mem_singleton.mp hnew]
          simp
  | verifyReview rid action reason adminId now =>
    simp only [runOp] at h
    unfold verifyReview at h
    cases hfind : findReview c rid with
    | none => rw [hfind] at h; exact absurd h (by simp)
    | some r0 =>
      rw [hfind] at h
      dsimp only at h
      cases hs1 : saveCourse { c with reviews := c.reviews.map (fun r =>
          if r.id == rid then applyModeration action reason adminId now r
          else r) } with
      | error e => rw [hs1] at h; exact absurd h (by simp)
      | ok c2 =>
        rw [hs1] at h
        dsimp only at h
        have hinv2 : CourseInv c2 := by
          refine courseInv_saveCourse hs1 hcap ?_ ?_ hshort
          · intro r' hr'
            obtain ⟨r, hr, hfr⟩ := List.mem_map.mp hr'
            by_cases hid : (r.id == rid) = true
            · rw [← hfr, if_pos hid]
              exact applyModeration_approved_visible action reason adminId now r
                (hvis r hr)
            · rw [← hfr, if_neg hid]
              exact hvis r hr
          · intro r' hr'
            obtain ⟨r, hr, hfr⟩ := List.mem_map.mp hr'
            by_cases hid : (r.id == rid) = true
            · rw [← hfr, if_pos hid, applyModeration_votedBy]
              exact hnodup r hr
            · rw [← hfr, if_neg hid]
              exact hnodup r hr
        obtain ⟨hcur2, hcap2, hvis2, hnodup2, hshort2, hrat2, hvalid2⟩ := hinv2
        split_ifs at h with happr hlen
        · exact courseInv_saveCourse h hcap2 hvis2 hnodup2 hshort2
        · cases h
          exact ⟨hcur2, hcap2, hvis2, hnodup2, hshort2, hrat2, hvalid2⟩
        · cases h
          exact ⟨hcur2, hcap2, hvis2, hnodup2, hshort2, hrat2, hvalid2⟩
  | voteReview rid uid vote =>
    simp only [runOp] at h
    unfold voteReview at h
    split_ifs at h with henum
    cases hfind : findReview c rid with
    | none => rw [hfind] at h; exact absurd h (by simp)
    | some r0 =>
      rw [hfind] at h
      dsimp only at h
      split_ifs at h with hstat
      refine courseInv_saveCourse h hcap ?_ ?_ hshort
      · intro r' hr'
        obtain ⟨r, hr, hfr⟩ := List.mem_map.mp hr'
        by_cases hid : (r.id == rid) = true
        · rw [← hfr, if_pos hid, (applyVote_status r uid vote).1,
              (applyVote_status r uid vote).2]
          exact hvis r hr
        · rw [← hfr, if_neg hid]
          exact hvis r hr
      · intro r' hr'
        obtain ⟨r, hr, hfr⟩ := List.mem_map.mp hr'
        by_cases hid : (r.id == rid) = true
        · rw [← hfr, if_pos hid]
          exact applyVote_users_nodup r uid vote (hnodup r hr)
        · rw [← hfr, if_neg hid]
          exact hnodup r hr
  | enroll uid amount now =>
    simp only [runOp] at h
    unfold enroll at h
    split_ifs at h with hcanf hdup hamt <;>
    · refine courseInv_saveCourse h ?_ hvis hnodup hshort
      intro hmax
      have hcan : canEnroll c now = true := by
        revert hcanf
        cases canEnroll c now <;> simp
      have hlt := canEnroll_capacity hcan hmax
      rw [hcur] at hlt
      simp only [completedEnrollments, List.filter_append] at *
      simp at *
      omega
  | addView =>
    simp only [runOp] at h
    unfold addView at h
    exact courseInv_saveCourse h hcap hvis hnodup hshort
  | addToShortlist =>
    simp only [runOp] at h
    unfold addToShortlist at h
    refine courseInv_saveCourse h hcap hvis hnodup ?_
    show (0 : Int) ≤ c.shortlisted + 1
    omega
  | removeFromShortlist =>
    simp only [runOp] at h
    unfold removeFromShortlist at h
    refine courseInv_saveCourse h hcap hvis hnodup ?_
    exact le_max_left 0 (c.shortlisted - 1)
  | promoteCourse level =>
    simp only [runOp] at h
    unfold promoteCourse at h
    exact courseInv_saveCourse h hcap hvis hnodup hshort
  | toggleCoursePublication publish reason adminId now =>
    simp only [runOp] at h
    unfold toggleCoursePublication at h
    exact courseInv_saveCourse h hcap hvis hnodup hshort
  | setCoursePublication publish =>
    simp only [runOp] at h
    unfold setCoursePublication at h
    cases h
    refine ⟨hcur, hcap, hvis, hnodup, hshort, hrat, ?_⟩
    unfold courseSchemaValid at hvalid ⊢
    simp only [Bool.and_eq_true] at hvalid ⊢
    refine ⟨⟨⟨hvalid.1.1.1, hvalid.1.1.2⟩, ?_⟩, hvalid.2⟩
    cases publish <;> simp [statusEnum]

/-- Every request, successful or rejected, preserves the invariant of the
stored course. -/
theorem courseInv_applyOp (c : Course) (op : CourseOp) (hInv : CourseInv c) :
    CourseInv (applyOp c op) := by
  unfold applyOp
  cases h : runOp c op with
  | ok c1 => exact courseInv_runOp c c1 op h hInv
  | error e => exact hInv

/-- The invariant is preserved along any request sequence. -/
theorem courseInv_foldl (ops : List CourseOp) (c : Course) (hInv : CourseInv c) :
    CourseInv (ops.foldl applyOp c) := by
  induction ops generalizing c with
  | nil => exact hInv
  | cons op rest ih =>
    rw [List.foldl_cons]
    exact ih (applyOp c op) (courseInv_applyOp c op hInv)

/-- Every reachable stored course satisfies the invariant. -/
theorem courseInv_reachable (c : Course) (h : Reachable c) : CourseInv c := by
  obtain ⟨inst, price, startDate, endDate, deadline, maxStudents, ops, rfl⟩ := h
  exact courseInv_foldl ops _
    (courseInv_initCourse inst price startDate endDate deadline maxStudents)

/-- Looking a review up by id in a list mapped by an id-preserving
per-element update finds the updated review. -/
theorem find?_map_if (l : List Review) (rid : Nat) (f : Review → Review)
    (hf : ∀ r, (f r).id = r.id) (r : Review)
    (h : l.find? (fun x => x.id == rid) = some r) :
    (l.map (fun x => if x.id == rid then f x else x)).find?
      (fun x => x.id == rid) = some (f r) := by
  induction l with
  | nil => simp at h
  | cons a rest ih =>
    rw [List.map_cons]
    by_cases ha : (a.id == rid) = true
    · rw [List.find?_cons_of_pos rest ha] at h
      have hra : r = a := ((Option.some.injEq _ _).mp h).symm
      subst hra
      rw [if_pos ha]
      refine List.find?_cons_of_pos _ ?_
      rw [hf r]
      exact ha
    · rw [List.find?_cons_of_neg rest ha] at h
      rw [if_neg ha]
      have step : List.find? (fun x => x.id == rid)
          (a :: List.map (fun x => if (x.id == rid) = true then f x else x) rest)
          = List.find? (fun x => x.id == rid)
            (List.map (fun x => if (x.id == rid) = true then f x else x) rest) :=
        List.find?_cons_of_neg _ ha
      rw [step]
      exact ih h

/-- Voting never changes a review's id. -/
theorem applyVote_id (r : Review) (uid : Nat) (vote : String) :
    (applyVote r uid vote).id = r.id := by
  unfold applyVote
  cases r.votedBy.find? (fun v => v.user == uid) <;>
    dsimp only <;> split_ifs <;> rfl

/-- Flipping the first vote record of a voter updates that voter's record. -/
theorem updateFirstVote_find? (votes : List VoteRecord) (uid : Nat)
    (w : String) (v : VoteRecord)
    (h : votes.find? (fun x => x.user == uid) = some v) :
    (updateFirstVote votes uid w).find? (fun x => x.user == uid)
      = some { v with vote := w } := by
  induction votes with
  | nil => simp at h
  | cons a rest ih =>
    unfold updateFirstVote
    by_cases ha : (a.user == uid) = true
    · rw [List.find?_cons_of_pos rest ha] at h
      have hva : v = a := ((Option.some.injEq _ _).mp h).symm
      subst hva
      rw [if_pos ha]
      refine List.find?_cons_of_pos _ ?_
      simpa using ha
    · rw [List.find?_cons_of_neg rest ha] at h
      rw [if_neg ha]
      have step : List.find? (fun x => x.user == uid)
          (a :: updateFirstVote rest uid w)
          = List.find? (fun x => x.user == uid) (updateFirstVote rest uid w) :=
        List.find?_cons_of_neg _ ha
      rw [step]
      exact ih h

/-- A recorded `helpful` voter who votes `not_helpful` has the helpful tally
decremented, the other tally incremented, the same voter list, and a single
flipped record. -/
theorem applyVote_flip_helpful (r : Review) (uid : Nat) (v : VoteRecord)
    (hfound : r.votedBy.find? (fun x => x.user == uid) = some v)
    (hv : v.vote = "helpful") :
    (applyVote r uid "not_helpful").helpfulVotes = r.helpfulVotes - 1 ∧
    (applyVote r uid "not_helpful").notHelpfulVotes = r.notHelpfulVotes + 1 ∧
    (applyVote r uid "not_helpful").votedBy.map VoteRecord.user
      = r.votedBy.map VoteRecord.user ∧
    (applyVote r uid "not_helpful").votedBy.find? (fun x => x.user == uid)
      = some { v with vote := "not_helpful" } := by
  unfold applyVote
  rw [hfound]
  dsimp only
  rw [hv]
  rw [if_pos (show (("helpful" : String) == "helpful") = true by decide)]
  rw [if_neg (show ¬((("not_helpful" : String) == "helpful") = true) by decide)]
  refine ⟨rfl, rfl, ?_, ?_⟩
  · exact updateFirstVote_users r.votedBy uid "not_helpful"
  · exact updateFirstVote_find? r.votedBy uid "not_helpful" v hfound

/-- The rating aggregates a save computes depend only on the approved set. -/
theorem recompute_congr_approved (a b : Course)
    (h : approvedReviews a = approvedReviews b) :
    (recomputeOnSave a).averageRating = (recomputeOnSave b).averageRating ∧
    (recomputeOnSave a).totalReviews = (recomputeOnSave b).totalReviews := by
  unfold recomputeOnSave
  dsimp only
  rw [h]
  split <;> exact ⟨rfl, rfl⟩

/-- A review that is not approved drops out of the approved-review filter. -/
theorem approvedReviews_skip (c : Course) (r : Review) (l1 l2 : List Review)
    (hr : r.verificationStatus ≠ "approved") :
    approvedReviews { c with reviews := l1 ++ r :: l2 }
      = approvedReviews { c with reviews := l1 ++ l2 } := by
  unfold approvedReviews
  dsimp only
  simp [List.filter_append, List.filter_cons, hr]

/-- Moderating with the `archive` action always writes the string `archived`. -/
theorem applyModeration_archive_status (reason : Option String)
    (adminId now : Nat) (r : Review) :
    (applyModeration "archive" reason adminId now r).verificationStatus
      = "archived" := by
  simp [applyModeration]

/-- A review whose status string is `archived` fails schema validation. -/
theorem reviewSchemaValid_archived (r : Review)
    (h : r.verificationStatus = "archived") : reviewSchemaValid r = false := by
  unfold reviewSchemaValid verificationStatusEnum
  rw [h]
  simp

/-- A course holding a review whose status string is `archived` fails
document validation, so its save is rejected. -/
theorem saveCourse_archived_fails (m : Course) (r : Review)
    (hr : r ∈ m.reviews) (h : r.verificationStatus = "archived") :
    saveCourse m = Except.error ReqError.validationFailed := by
  have hall : m.reviews.all reviewSchemaValid = false := by
    rw [Bool.eq_false_iff]
    intro hcon
    have := (List.all_eq_true.mp hcon) r hr
    rw [reviewSchemaValid_archived r h] at this
    exact Bool.false_ne_true this
  have hvalid : courseSchemaValid m = false := by
    unfold courseSchemaValid
    rw [hall]
    simp
  unfold saveCourse
  rw [hvalid]
  simp

/-- Characterisation of the enrollability gate: `canEnroll` accepts exactly
when the course is published (flag and status), the enrollment deadline, when
one is set, has not passed, and capacity, when bounded, is not reached. -/
theorem canEnroll_iff (c : Course) (now : Nat) :
    canEnroll c now = true ↔
      (c.isPublished = true ∧ c.status = "published" ∧
       (∀ d, c.enrollmentDeadline = some d → now ≤ d) ∧
       (c.maxStudents = 0 ∨ c.currentEnrollments < c.maxStudents)) := by
  unfold canEnroll
  split_ifs with h1 h2 h3 h4
  · simp only [Bool.not_eq_true'] at h1
    simp [h1]
  · constructor
    · intro hh
      exact absurd hh (by simp)
    · intro hh
      exact absurd hh.2.1 h2
  · constructor
    · intro hh
      exact absurd hh (by simp)
    · intro hh
      cases hd : c.enrollmentDeadline with
      | none => rw [hd] at h3; simp at h3
      | some d =>
        rw [hd] at h3
        simp only [decide_eq_true_eq] at h3
        exact absurd h3 (Nat.not_lt.mpr (hh.2.2.1 d hd))
  · constructor
    · intro hh
      exact absurd hh (by simp)
    · intro hh
      simp only [Bool.and_eq_true, decide_eq_true_eq] at h4
      rcases hh.2.2.2 with hz | hlt
      · omega
      · omega
  · constructor
    · intro _
      refine ⟨by simpa using h1, by simpa using h2, ?_, ?_⟩
      · intro d hd
        rw [hd] at h3
        simp only [decide_eq_true_eq] at h3
        omega
      · by_cases hz : c.maxStudents = 0
        · exact Or.inl hz
        · refine Or.inr ?_
          have : ¬(c.maxStudents > 0 ∧ c.currentEnrollments ≥ c.maxStudents) := by
            intro hcon
            exact h4 (by simp [hcon.1, hcon.2])
          omega
    · intro _
      rfl

/-- Moderating a located review with `archive` always fails document
validation, because the schema enum has no `archived` value; the stored
course is untouched. -/
theorem verifyReview_archive_fails (c : Course) (rid : Nat)
    (reason : Option String) (adminId now : Nat) (r0 : Review)
    (hfind : findReview c rid = some r0) :
    verifyReview c rid "archive" reason adminId now
      = Except.error ReqError.validationFailed := by
  unfold verifyReview
  rw [hfind]
  dsimp only
  have hfind2 : c.reviews.find? (fun r => r.id == rid) = some r0 := hfind
  have hr0 : r0 ∈ c.reviews := List.mem_of_find?_eq_some hfind2
  have hid0 := List.find?_some hfind2
  have hid : (r0.id == rid) = true := hid0
  have hmem : applyModeration "archive" reason adminId now r0 ∈
      c.reviews.map (fun r =>
        if r.id == rid then applyModeration "archive" reason adminId now r
        else r) := by
    have := List.mem_map_of_mem (fun r =>
      if r.id == rid then applyModeration "archive" reason adminId now r
      else r) hr0
    dsimp only at this
    rwa [if_pos hid] at this
  rw [saveCourse_archived_fails _ _ hmem
    (applyModeration_archive_status reason adminId now r0)]

/-- Every course a save persists satisfies the rating invariant. -/
theorem ratingInv_of_save {m c' : Course} (h : saveCourse m = Except.ok c') :
    RatingInv c' := by
  obtain ⟨_, rfl⟩ := saveCourse_eq_ok h
  exact ratingInv_recomputeOnSave m

/-- A successful review submission persists through a save. -/
theorem submitReview_ok_ratingInv {c c' : Course} {uid : Nat}
    {cr ir fr : Int} {text : String} {newId now : Nat}
    (h : submitReview c uid cr ir fr text newId now = Except.ok c') :
    RatingInv c' := by
  unfold submitReview at h
  split_ifs at h
  exact ratingInv_of_save h

/-- A successful review moderation persists through a save (the approve
branch saves twice; the result of the second save is also a save image). -/
theorem verifyReview_ok_ratingInv {c c' : Course} {rid : Nat} {action : String}
    {reason : Option String} {adminId now : Nat}
    (h : verifyReview c rid action reason adminId now = Except.ok c') :
    RatingInv c' := by
  unfold verifyReview at h
  cases hfind : findReview c rid with
  | none => rw [hfind] at h; exact absurd h (by simp)
  | some r0 =>
    rw [hfind] at h
    dsimp only at h
    cases hs1 : saveCourse { c with reviews := c.reviews.map (fun r =>
        if r.id == rid then applyModeration action reason adminId now r
        else r) } with
    | error e => rw [hs1] at h; exact absurd h (by simp)
    | ok c2 =>
      rw [hs1] at h
      dsimp only at h
      split_ifs at h with happr hlen
      · exact ratingInv_of_save h
      · cases h
        exact ratingInv_of_save hs1
      · cases h
        exact ratingInv_of_save hs1

/-- Every review of every course owned by an institution surfaces in the
institution review listing. -/
theorem mem_getInstitutionReviews (store : List (Nat × Course))
    (instId courseId : Nat) (c : Course) (r : Review)
    (hmem : (courseId, c) ∈ store) (hinst : c.institution = instId)
    (hr : r ∈ c.reviews) :
    institutionReviewEntry courseId r ∈ getInstitutionReviews store instId := by
  unfold getInstitutionReviews
  dsimp only
  rw [List.mem_mergeSort]
  rw [List.mem_flatten]
  refine ⟨c.reviews.map (institutionReviewEntry courseId), ?_, ?_⟩
  · have hfil : (courseId, c) ∈ store.filter (fun p => p.2.institution == instId) :=
      List.mem_filter.mpr ⟨hmem, by simp [hinst]⟩
    exact List.mem_map_of_mem (fun p => p.2.reviews.map (institutionReviewEntry p.1)) hfil
  · exact List.mem_map_of_mem (institutionReviewEntry courseId) hr

/-- Test fixture: a fresh course of institution 100, price 500, running from
day 1000 to day 2000, no enrollment deadline, capacity 2. -/
def courseBase : Course := initCourse 100 500 1000 2000 none 2

/-- Test fixture: the same course after its institution publishes it. -/
def coursePublished : Course :=
  applyOp courseBase (CourseOp.setCoursePublication true)

/-- Test fixture: the published course with user 7 enrolled (completed). -/
def courseEnrolled : Course :=
  applyOp coursePublished (CourseOp.enroll 7 0 500)

/-- Test fixture: the published course at capacity: users 7 and 8 enrolled,
`maxStudents = 2`. -/
def courseFull : Course :=
  applyOp courseEnrolled (CourseOp.enroll 8 0 600)

/-- Test fixture: user 7, a completed enrollee, has submitted review 1;
the review is pending, with the enrollment badge set. -/
def courseReviewed : Course :=
  applyOp courseEnrolled (CourseOp.submitReview 7 5 4 3 "good course" 1 800)

/-- Test fixture: review 1 has been approved by admin 99. -/
def courseApproved : Course :=
  applyOp courseReviewed (CourseOp.verifyReview 1 "approve" none 99 900)

/-- Test fixture: user 8 has voted `helpful` on the approved review. -/
def courseVoted : Course :=
  applyOp courseApproved (CourseOp.voteReview 1 8 "helpful")

/-- Test fixture: user 9, never enrolled, has submitted review 2 on the
approved-review course. -/
def courseTwoReviews : Course :=
  applyOp courseApproved (CourseOp.submitReview 9 2 2 2 "too basic" 2 950)

/-- Test fixture: a verified, active institution user owning the courses. -/
def instUser : InstitutionUser :=
  { id := 100, role := "institution", isVerified := true, isActive := true,
    deactivatedAt := none, deactivationReason := none }

/-- Test fixture: the system state holding the institution and its published
course. -/
def sysBefore : SysState :=
  { institution := instUser, courses := [(1, coursePublished)] }

/-- Test fixture: the institution user after deactivation on day 700. -/
def instUserInactive : InstitutionUser :=
  { instUser with
      isActive := false
      deactivatedAt := some 700
      deactivationReason := some "policy violation" }

/-- Test fixture: the system state after the deactivation request. -/
def sysAfter : SysState :=
  { institution := instUserInactive, courses := [(1, coursePublished)] }

/-- C1: after any operation that changes the review set or a review's
verification status (submitReview, moderateReview approve/reject/archive),
`averageRating.course`, `averageRating.institute` and `averageRating.faculty`
each equal the arithmetic mean of the corresponding rating over exactly the
reviews with `verificationStatus == 'approved'`, `averageRating.overall`
equals the mean of those three means, and `totalReviews` equals the count of
that approved set; when the approved set is empty all four rating fields and
`totalReviews` are 0, and adding or removing a pending or rejected review
never changes any of them. -/
theorem averageRating_tracks_approved_set (c c' : Course) :
    (∀ (uid : Nat) (cr ir fr : Int) (text : String) (newId now : Nat),
      submitReview c uid cr ir fr text newId now = Except.ok c' → RatingInv c') ∧
    (∀ (rid : Nat) (action : String) (reason : Option String) (adminId now : Nat),
      verifyReview c rid action reason adminId now = Except.ok c' → RatingInv c') ∧
    (∀ (r : Review) (l1 l2 : List Review), r.verificationStatus ≠ "approved" →
      (recomputeOnSave { c with reviews := l1 ++ r :: l2 }).averageRating
        = (recomputeOnSave { c with reviews := l1 ++ l2 }).averageRating ∧
      (recomputeOnSave { c with reviews := l1 ++ r :: l2 }).totalReviews
        = (recomputeOnSave { c with reviews := l1 ++ l2 }).totalReviews) := by
  refine ⟨?_, ?_, ?_⟩
  · intro uid cr ir fr text newId now h
    exact submitReview_ok_ratingInv h
  · intro rid action reason adminId now h
    exact verifyReview_ok_ratingInv h
  · intro r l1 l2 hr
    exact recompute_congr_approved _ _ (approvedReviews_skip c r l1 l2 hr)

/-- C1 witness: the rating invariant after a concrete review submission. -/
theorem averageRating_tracks_approved_set_witness :
    submitReview courseEnrolled 7 5 4 3 "good course" 1 800
      = Except.ok courseReviewed ∧ RatingInv courseReviewed :=
  ⟨rfl, (averageRating_tracks_approved_set courseEnrolled courseReviewed).1
    7 5 4 3 "good course" 1 800 rfl⟩

/-- C2 counterexample: deactivating the institution that owns one published
course leaves the course with `status = 'published'`, `isPublished = true`
and no `adminAction`, not `suspended` as the claim states. -/
theorem deactivation_cascade_counterexample :
    (sysUpdateInstitutionStatus sysBefore "inactive" (some "policy violation")
        700).toOption.map (fun s => s.courses.map (fun p =>
          (p.2.status, p.2.isPublished, p.2.adminAction)))
      = some [("published", true, none)] ∧
    (sysUpdateInstitutionStatus sysBefore "inactive" (some "policy violation")
        700).toOption.map (fun s => s.institution.isActive) = some false := by
  exact ⟨rfl, rfl⟩

/-- C2 amended: `updateInstitutionStatus` writes only the institution user
document: on `inactive` it sets `isActive = false` with a deactivation stamp
and reason, on `active` it sets `isActive = true` and clears the stamp, and
in every case the stored courses (status, publication flag, adminAction and
all other fields) are untouched: there is no suspension cascade, and
re-activation leaves the courses unchanged as well. -/
theorem institution_status_touches_no_course (s : SysState) (status : String)
    (reason : Option String) (now : Nat) (s' : SysState)
    (h : sysUpdateInstitutionStatus s status reason now = Except.ok s') :
    s'.courses = s.courses ∧
    (status = "inactive" → s'.institution.isActive = false ∧
      s'.institution.deactivatedAt = some now ∧
      s'.institution.deactivationReason = reason) ∧
    (status = "active" → s'.institution.isActive = true ∧
      s'.institution.deactivatedAt = none) := by
  unfold sysUpdateInstitutionStatus updateInstitutionStatus at h
  split_ifs at h with hrole hact hinact
  · cases h
    refine ⟨rfl, ?_, ?_⟩
    · intro habs
      rw [habs] at hact
      simp at hact
    · intro _
      exact ⟨rfl, rfl⟩
  · cases h
    refine ⟨rfl, ?_, ?_⟩
    · intro _
      exact ⟨rfl, rfl, rfl⟩
    · intro habs
      rw [habs] at hinact
      simp at hinact
  · cases h
    refine ⟨rfl, ?_, ?_⟩
    · intro habs
      rw [habs] at hinact
      simp at hinact
    · intro habs
      rw [habs] at hact
      simp at hact

/-- C2 witness: the amended statement at the concrete deactivation. -/
theorem institution_status_touches_no_course_witness :
    sysUpdateInstitutionStatus sysBefore "inactive" (some "policy violation") 700
      = Except.ok sysAfter ∧
    sysAfter.courses = sysBefore.courses ∧
    sysAfter.institution.isActive = false := by
  have h := institution_status_touches_no_course sysBefore "inactive"
    (some "policy violation") 700 sysAfter rfl
  exact ⟨rfl, h.1, (h.2.1 rfl).1⟩

/-- C3: for every course with positive `maxStudents`, in every state
reachable by request sequences of the embedded operations, the number of
enrollments with `paymentStatus == 'completed'` never exceeds the capacity. -/
theorem completed_enrollments_within_capacity (c : Course) (h : Reachable c)
    (hmax : 0 < c.maxStudents) :
    (completedEnrollments c).length ≤ c.maxStudents :=
  (courseInv_reachable c h).2.1 hmax

/-- C3 witness: the capacity bound at a concretely reached two-enrollment
state of a capacity-2 course. -/
theorem completed_enrollments_within_capacity_witness :
    Reachable courseFull ∧ 0 < courseFull.maxStudents ∧
    (completedEnrollments courseFull).length ≤ courseFull.maxStudents :=
  ⟨⟨100, 500, 1000, 2000, none, 2,
    [CourseOp.setCoursePublication true, CourseOp.enroll 7 0 500,
     CourseOp.enroll 8 0 600], rfl⟩,
   by decide,
   completed_enrollments_within_capacity courseFull
    ⟨100, 500, 1000, 2000, none, 2,
      [CourseOp.setCoursePublication true, CourseOp.enroll 7 0 500,
       CourseOp.enroll 8 0 600], rfl⟩ (by decide)⟩

/-- The only error a save itself produces is the validation failure. -/
theorem saveCourse_error_kind {m : Course} {e : ReqError}
    (h : saveCourse m = Except.error e) : e = ReqError.validationFailed := by
  unfold saveCourse at h
  split_ifs at h
  exact ((Except.error.injEq _ _).mp h).symm

/-- C4 counterexample: user 7 already has a review on the course, yet a
second submission whose `courseRating` is 0 fails the required-fields check,
which runs first, and therefore does not fail with `DuplicateReview`. -/
theorem duplicate_review_error_kind_counterexample :
    courseReviewed.reviews.any (fun r => r.user == 7) = true ∧
    submitReview courseReviewed 7 0 4 3 "again" 2 900
      = Except.error ReqError.missingFields ∧
    submitReview courseReviewed 7 0 4 3 "again" 2 900
      ≠ Except.error ReqError.duplicateReview := by
  refine ⟨rfl, rfl, ?_⟩
  intro hcon
  rw [show submitReview courseReviewed 7 0 4 3 "again" 2 900
    = Except.error ReqError.missingFields from rfl] at hcon
  exact absurd ((Except.error.injEq _ _).mp hcon) (by simp)

/-- C4 amended: a second submitReview by a user who already has a review on
the course, whatever that review's verificationStatus, always fails and
leaves the stored course unchanged; the error is `DuplicateReview` whenever
the request carries nonzero ratings and a nonempty text, and the
required-fields `ValidationError` (which the handler checks first) otherwise. -/
theorem duplicate_review_always_rejected (c : Course) (uid : Nat)
    (cr ir fr : Int) (text : String) (newId now : Nat)
    (hdup : c.reviews.any (fun r => r.user == uid) = true) :
    (submitReview c uid cr ir fr text newId now
        = Except.error ReqError.duplicateReview ∨
     submitReview c uid cr ir fr text newId now
        = Except.error ReqError.missingFields) ∧
    applyOp c (CourseOp.submitReview uid cr ir fr text newId now) = c ∧
    (cr ≠ 0 → ir ≠ 0 → fr ≠ 0 → text ≠ "" →
      submitReview c uid cr ir fr text newId now
        = Except.error ReqError.duplicateReview) := by
  have hmain : submitReview c uid cr ir fr text newId now
      = Except.error ReqError.duplicateReview ∨
      submitReview c uid cr ir fr text newId now
      = Except.error ReqError.missingFields := by
    unfold submitReview
    split_ifs with hmiss
    · exact Or.inr rfl
    · exact Or.inl rfl
  refine ⟨hmain, ?_, ?_⟩
  · simp only [applyOp, runOp]
    rcases hmain with h | h <;> rw [h]
  · intro hcr hir hfr htext
    unfold submitReview
    rw [if_neg (by simp [hcr, hir, hfr, htext])]
    rw [if_pos hdup]

/-- C4 witness: the amended statement at a concrete duplicate submission. -/
theorem duplicate_review_always_rejected_witness :
    submitReview courseReviewed 7 2 2 2 "again" 2 900
      = Except.error ReqError.duplicateReview ∧
    applyOp courseReviewed (CourseOp.submitReview 7 2 2 2 "again" 2 900)
      = courseReviewed := by
  have h := duplicate_review_always_rejected courseReviewed 7 2 2 2 "again" 2 900 rfl
  exact ⟨h.2.2 (by decide) (by decide) (by decide) (by decide), h.2.1⟩

/-- C5 counterexample: a published course whose `startDate` (day 1000) lies
in the past at enrollment time (day 5000) and which has no
`enrollmentDeadline` accepts the enrollment, contradicting the claim that
enroll fails unless the current date is at most `startDate`. -/
theorem enroll_after_startDate_succeeds_counterexample :
    coursePublished.isPublished = true ∧
    coursePublished.status = "published" ∧
    coursePublished.enrollmentDeadline = none ∧
    coursePublished.startDate < 5000 ∧
    enroll coursePublished 9 0 5000
      = Except.ok (applyOp coursePublished (CourseOp.enroll 9 0 5000)) := by
  exact ⟨rfl, rfl, rfl, by decide, rfl⟩

/-- C5 amended: enroll fails with `NotEnrollable` exactly when one of the
following fails on the course: `isPublished == true`, `status == 'published'`,
the enrollment deadline (when one is set) has not passed — `startDate` is
never consulted — and (`maxStudents == 0` OR
`currentEnrollments < maxStudents`); when any condition fails, and more
generally on every error, no enrollment record is appended. -/
theorem enroll_gate_conditions (c : Course) (uid : Nat) (amount : Rat)
    (now : Nat) :
    (enroll c uid amount now = Except.error ReqError.notEnrollable ↔
      ¬(c.isPublished = true ∧ c.status = "published" ∧
        (∀ d, c.enrollmentDeadline = some d → now ≤ d) ∧
        (c.maxStudents = 0 ∨ c.currentEnrollments < c.maxStudents))) ∧
    (∀ e, enroll c uid amount now = Except.error e →
      applyOp c (CourseOp.enroll uid amount now) = c) := by
  constructor
  · by_cases hcan : canEnroll c now = true
    · unfold enroll
      rw [if_neg (by simp [hcan])]
      constructor
      · intro h
        split_ifs at h
        · exact absurd ((Except.error.injEq _ _).mp h) (by simp)
        · exact absurd (saveCourse_error_kind h) (by simp)
        · exact absurd (saveCourse_error_kind h) (by simp)
      · intro hcon
        exact absurd ((canEnroll_iff c now).mp hcan) hcon
    · unfold enroll
      have hfalse : canEnroll c now = false := by
        cases hcn : canEnroll c now
        · rfl
        · exact absurd hcn hcan
      rw [if_pos (by rw [hfalse]; rfl)]
      constructor
      · intro _
        intro hcond
        exact hcan ((canEnroll_iff c now).mpr hcond)
      · intro _
        rfl
  · intro e h
    simp only [applyOp, runOp]
    rw [h]

/-- C5 witness: the amended statement at a concrete unpublished course. -/
theorem enroll_gate_conditions_witness :
    enroll courseBase 5 0 100 = Except.error ReqError.notEnrollable ∧
    applyOp courseBase (CourseOp.enroll 5 0 100) = courseBase := by
  have h := enroll_gate_conditions courseBase 5 0 100
  have hfail : enroll courseBase 5 0 100 = Except.error ReqError.notEnrollable :=
    h.1.mpr (by intro hcon; exact absurd hcon.1 (by decide))
  exact ⟨hfail, h.2 ReqError.notEnrollable hfail⟩

/-- C6 (code bug): the enrollment badge `isVerified` is NOT immutable under
moderation. At review creation the badge is computed from a completed
enrollment (user 7 enrolled: badge `true`; user 9 not enrolled: badge
`false`), but `verifyReview` overwrites it on every action: rejecting the
enrolled user's review flips the badge `true -> false`, and approving the
unenrolled user's review flips it `false -> true`, contradicting the comment
in the submission handler (courseRoutes.js line 271: enrollment verification,
not admin verification) and the claim. -/
theorem moderation_overwrites_enrollment_badge :
    courseReviewed.reviews.map (fun r => (r.user, r.isVerified)) = [(7, true)] ∧
    (verifyReview courseReviewed 1 "reject" (some "spam") 99 900).toOption.map
        (fun c => c.reviews.map (fun r => (r.user, r.isVerified)))
      = some [(7, false)] ∧
    courseTwoReviews.reviews.map (fun r => (r.user, r.isVerified))
      = [(7, true), (9, false)] ∧
    (verifyReview courseTwoReviews 2 "approve" none 99 960).toOption.map
        (fun c => c.reviews.map (fun r => (r.user, r.isVerified)))
      = some [(7, true), (9, true)] := by
  exact ⟨rfl, rfl, rfl, rfl⟩

/-- C7 counterexample: review 1 of the fixture course is `approved`, yet the
`archive` action does not set `verificationStatus = 'archived'` in the stored
course: the schema enum rejects the value, the save fails validation and the
stored course is unchanged. -/
theorem archive_on_approved_review_counterexample :
    courseApproved.reviews.map (fun r => (r.id, r.verificationStatus))
      = [(1, "approved")] ∧
    verifyReview courseApproved 1 "archive" none 99 1000
      = Except.error ReqError.validationFailed ∧
    applyOp courseApproved (CourseOp.verifyReview 1 "archive" none 99 1000)
      = courseApproved := by
  exact ⟨rfl, rfl, rfl⟩

/-- C7 amended: `moderateReview` with action `archive` checks no precondition
on the review's current status; it sets `verificationStatus = 'archived'` and
`isVisible = false` on the in-memory review, but the schema enum of
`verificationStatus` is `['pending', 'approved', 'rejected']`, so the save is
always rejected by validation and the stored course is unchanged; no
`InvalidState` error exists on this path. Consequently no stored review of a
reachable course ever has status `archived` (the state is unreachable rather
than terminal). -/
theorem archive_never_persists (c : Course) (rid : Nat)
    (reason : Option String) (adminId now : Nat) (r0 : Review)
    (hfind : findReview c rid = some r0) :
    verifyReview c rid "archive" reason adminId now
      = Except.error ReqError.validationFailed ∧
    applyOp c (CourseOp.verifyReview rid "archive" reason adminId now) = c ∧
    (Reachable c → ∀ r ∈ c.reviews, r.verificationStatus ≠ "archived") := by
  have hfail := verifyReview_archive_fails c rid reason adminId now r0 hfind
  refine ⟨hfail, ?_, ?_⟩
  · simp only [applyOp, runOp]
    rw [hfail]
  · intro hreach r hr habs
    have hvalid := (courseInv_reachable c hreach).2.2.2.2.2.2
    unfold courseSchemaValid at hvalid
    simp only [Bool.and_eq_true] at hvalid
    have hall := List.all_eq_true.mp hvalid.1.1.1 r hr
    rw [reviewSchemaValid_archived r habs] at hall
    exact Bool.false_ne_true hall

/-- C7 fixture: the approved review of `courseApproved`, spelled out. -/
def reviewApprovedFix : Review :=
  { id := 1, user := 7, courseRating := 5, instituteRating := 4,
    facultyRating := 3, reviewText := "good course",
    verificationStatus := "approved", verifiedBy := some 99,
    verifiedAt := some 900, rejectionReason := none, isVisible := true,
    isVerified := true, helpfulVotes := 0, notHelpfulVotes := 0,
    votedBy := [], createdAt := 800 }

/-- C7 witness: the amended statement at the concrete approved review. -/
theorem archive_never_persists_witness :
    verifyReview courseApproved 1 "archive" none 99 1000
      = Except.error ReqError.validationFailed ∧
    applyOp courseApproved (CourseOp.verifyReview 1 "archive" none 99 1000)
      = courseApproved ∧
    (∀ r ∈ courseApproved.reviews, r.verificationStatus ≠ "archived") := by
  have h := archive_never_persists courseApproved 1 none 99 1000
    reviewApprovedFix rfl
  exact ⟨h.1, h.2.1, h.2.2 ⟨100, 500, 1000, 2000, none, 2,
    [CourseOp.setCoursePublication true, CourseOp.enroll 7 0 500,
     CourseOp.submitReview 7 5 4 3 "good course" 1 800,
     CourseOp.verifyReview 1 "approve" none 99 900], rfl⟩⟩

/-- C8: on an approved review, a user who already holds a `helpful` vote and
votes `not_helpful` has exactly one tally unit moved (`helpfulVotes` down by
one, `notHelpfulVotes` up by one, total unchanged), keeps a single flipped
vote record, and the voter list is unchanged; on a review that is not
approved, any vote fails with `InvalidState` and changes nothing; and on
every reachable course no user ever holds two simultaneous vote records on
the same review. -/
theorem vote_flip_moves_one_unit (c : Course) (rid uid : Nat) (r : Review)
    (hfind : findReview c rid = some r) :
    (∀ (v : VoteRecord),
      r.votedBy.find? (fun x => x.user == uid) = some v → v.vote = "helpful" →
      ∀ c', voteReview c rid uid "not_helpful" = Except.ok c' →
        ∃ r', findReview c' rid = some r' ∧
          r'.helpfulVotes = r.helpfulVotes - 1 ∧
          r'.notHelpfulVotes = r.notHelpfulVotes + 1 ∧
          r'.helpfulVotes + r'.notHelpfulVotes
            = r.helpfulVotes + r.notHelpfulVotes ∧
          r'.votedBy.map VoteRecord.user = r.votedBy.map VoteRecord.user ∧
          r'.votedBy.find? (fun x => x.user == uid)
            = some { v with vote := "not_helpful" }) ∧
    (∀ vote, voteEnum.contains vote = true →
      r.verificationStatus ≠ "approved" →
      voteReview c rid uid vote = Except.error ReqError.invalidState ∧
      applyOp c (CourseOp.voteReview rid uid vote) = c) ∧
    (Reachable c → ∀ rr ∈ c.reviews,
      (rr.votedBy.map VoteRecord.user).Nodup) := by
  refine ⟨?_, ?_, ?_⟩
  · intro v hv hvhelp c' hok
    unfold voteReview at hok
    rw [if_neg (by simp [voteEnum])] at hok
    rw [hfind] at hok
    dsimp only at hok
    split_ifs at hok with hstat
    obtain ⟨_, rfl⟩ := saveCourse_eq_ok hok
    refine ⟨applyVote r uid "not_helpful", ?_, ?_, ?_, ?_, ?_, ?_⟩
    · show (recomputeOnSave _).reviews.find? _ = _
      rw [(recomputeOnSave_frame _).1]
      exact find?_map_if c.reviews rid (fun x => applyVote x uid "not_helpful")
        (fun x => applyVote_id x uid "not_helpful") r hfind
    · exact (applyVote_flip_helpful r uid v hv hvhelp).1
    · exact (applyVote_flip_helpful r uid v hv hvhelp).2.1
    · rw [(applyVote_flip_helpful r uid v hv hvhelp).1,
          (applyVote_flip_helpful r uid v hv hvhelp).2.1]
      omega
    · exact (applyVote_flip_helpful r uid v hv hvhelp).2.2.1
    · exact (applyVote_flip_helpful r uid v hv hvhelp).2.2.2
  · intro vote henum hstat
    have hfail : voteReview c rid uid vote = Except.error ReqError.invalidState := by
      unfold voteReview
      rw [if_neg (by rw [henum]; simp)]
      rw [hfind]
      dsimp only
      rw [if_pos hstat]
    refine ⟨hfail, ?_⟩
    simp only [applyOp, runOp]
    rw [hfail]
  · intro hreach
    exact (courseInv_reachable c hreach).2.2.2.1

/-- C8 fixture: the approved review carrying the helpful vote of user 8. -/
def reviewVotedFix : Review :=
  { reviewApprovedFix with
      helpfulVotes := 1
      votedBy := [{ user := 8, vote := "helpful" }] }

/-- C8 witness: the concrete helpful-then-not_helpful flip by user 8 on the
approved review. -/
theorem vote_flip_moves_one_unit_witness :
    ∃ r', findReview (applyOp courseVoted (CourseOp.voteReview 1 8 "not_helpful")) 1
        = some r' ∧
      r'.helpfulVotes = (0 : Int) ∧
      r'.notHelpfulVotes = (1 : Int) ∧
      r'.votedBy.map VoteRecord.user = [8] ∧
      r'.votedBy.find? (fun x => x.user == 8)
        = some { user := 8, vote := "not_helpful" } := by
  have h := (vote_flip_moves_one_unit courseVoted 1 8 reviewVotedFix rfl).1
    { user := 8, vote := "helpful" } rfl rfl
    (applyOp courseVoted (CourseOp.voteReview 1 8 "not_helpful")) rfl
  obtain ⟨r', hfind', h1, h2, _, h4, h5⟩ := h
  exact ⟨r', hfind', by rw [h1]; rfl, by rw [h2]; rfl, by rw [h4]; rfl,
    by rw [h5]⟩

/-- C9: a public or aspirant course-detail read receives exactly the reviews
with `verificationStatus == 'approved'` and `isVisible == true` (the handler
filters on the approved status; on reachable stored courses approved reviews
are exactly the visible approved ones, and pending, rejected and archived
reviews are absent), while the owning institution's review listing returns
every review of its courses whatever the status, with `verificationStatus`
and `rejectionReason` included, and the admin course listing returns the full
course documents, reviews unfiltered. -/
theorem review_visibility_by_role (c : Course) (courseId instId : Nat)
    (store : List (Nat × Course)) (hreach : Reachable c) :
    (publicCourseReviews c
        = c.reviews.filter (fun r =>
            r.verificationStatus == "approved" && r.isVisible) ∧
     ∀ r ∈ publicCourseReviews c,
       r.verificationStatus = "approved" ∧ r.isVisible = true) ∧
    ((courseId, c) ∈ store → c.institution = instId →
      ∀ r ∈ c.reviews,
        institutionReviewEntry courseId r ∈ getInstitutionReviews store instId ∧
        (institutionReviewEntry courseId r).verificationStatus
          = r.verificationStatus ∧
        (institutionReviewEntry courseId r).rejectionReason
          = r.rejectionReason) ∧
    ((courseId, c) ∈ store → (courseId, c) ∈ getAllCoursesAdmin store) := by
  have hvis := (courseInv_reachable c hreach).2.2.1
  refine ⟨⟨?_, ?_⟩, ?_, ?_⟩
  · unfold publicCourseReviews
    refine List.filter_congr ?_
    intro r hr
    by_cases happ : r.verificationStatus = "approved"
    · rw [hvis r hr happ]
      simp [happ]
    · simp [happ]
  · intro r hr
    unfold publicCourseReviews at hr
    have := List.mem_filter.mp hr
    have happ : r.verificationStatus = "approved" := by simpa using this.2
    exact ⟨happ, hvis r this.1 happ⟩
  · intro hmem hinst r hr
    exact ⟨mem_getInstitutionReviews store instId courseId c r hmem hinst hr,
      rfl, rfl⟩
  · intro hmem
    exact hmem

/-- C9 witness: the equalities at the concrete approved-review course. -/
theorem review_visibility_by_role_witness :
    publicCourseReviews courseApproved
      = courseApproved.reviews.filter (fun r =>
          r.verificationStatus == "approved" && r.isVisible) ∧
    institutionReviewEntry 1 reviewApprovedFix
      ∈ getInstitutionReviews [(1, courseApproved)] 100 := by
  have h := review_visibility_by_role courseApproved 1 100 [(1, courseApproved)]
    ⟨100, 500, 1000, 2000, none, 2,
      [CourseOp.setCoursePublication true, CourseOp.enroll 7 0 500,
       CourseOp.submitReview 7 5 4 3 "good course" 1 800,
       CourseOp.verifyReview 1 "approve" none 99 900], rfl⟩
  refine ⟨h.1.1, ?_⟩
  have := h.2.1 (by simp) rfl reviewApprovedFix (by
    rw [show courseApproved.reviews = [reviewApprovedFix] from rfl]
    exact List.mem_singleton.mpr rfl)
  exact this.1

/-- C10: `Course.shortlisted` never goes below zero: on every reachable
course the counter is nonnegative, `addToShortlist` increments it by exactly
one, `removeFromShortlist` stores `max 0 (shortlisted - 1)`, and removing
when the counter is already 0 leaves it at 0. -/
theorem shortlist_counter_never_negative (c : Course) (h : Reachable c) :
    0 ≤ c.shortlisted ∧
    (∀ c', addToShortlist c = Except.ok c' →
      c'.shortlisted = c.shortlisted + 1) ∧
    (∀ c', removeFromShortlist c = Except.ok c' →
      c'.shortlisted = max 0 (c.shortlisted - 1)) ∧
    (c.shortlisted = 0 → ∀ c', removeFromShortlist c = Except.ok c' →
      c'.shortlisted = 0) := by
  have hshort := (courseInv_reachable c h).2.2.2.2.1
  refine ⟨hshort, ?_, ?_, ?_⟩
  · intro c' hok
    unfold addToShortlist at hok
    obtain ⟨_, rfl⟩ := saveCourse_eq_ok hok
    exact (recomputeOnSave_frame _).2.2.1
  · intro c' hok
    unfold removeFromShortlist at hok
    obtain ⟨_, rfl⟩ := saveCourse_eq_ok hok
    exact (recomputeOnSave_frame _).2.2.1
  · intro hzero c' hok
    unfold removeFromShortlist at hok
    obtain ⟨_, rfl⟩ := saveCourse_eq_ok hok
    rw [(recomputeOnSave_frame _).2.2.1]
    show max 0 (c.shortlisted - 1) = 0
    rw [hzero]
    rfl

/-- C10 witness: the counter at the freshly created course: removal keeps it
at 0, addition sets it to 1. -/
theorem shortlist_counter_never_negative_witness :
    (0 : Int) ≤ courseBase.shortlisted ∧
    (applyOp courseBase CourseOp.removeFromShortlist).shortlisted = 0 ∧
    (applyOp courseBase CourseOp.addToShortlist).shortlisted
      = courseBase.shortlisted + 1 := by
  have h := shortlist_counter_never_negative courseBase
    ⟨100, 500, 1000, 2000, none, 2, [], rfl⟩
  refine ⟨h.1, ?_, ?_⟩
  · exact h.2.2.2 rfl (applyOp courseBase CourseOp.removeFromShortlist) rfl
  · exact h.2.1 (applyOp courseBase CourseOp.addToShortlist) rfl

end Chq
